import Mathlib

/-!
Verification of the layout-packing core of the Ganesh live-collage application.

The repository contains three variants of the same app.  The claim-relevant
code is:

* `src/unnamed/part_000`: `getLayoutConfig`, `getGridPosition`, `removePhoto`,
  `capturePhoto` / `handleFileUpload` (photo ingestion).
* `src/unnamed/part_001`: `getResponsiveGridSize`, `generateMosaicLayout`.
* `src/src/App.jsx`: `getGridSize`, `downloadCollage` (index filter),
  `addPhoto`, `removePhoto`.

JavaScript numbers are modelled as follows: photo counts, grid sizes and
indices are natural numbers (they are non-negative integers in the source);
photo ids (millisecond clock values plus a random fraction) are rationals.
The floating-point expressions used by the source are
`Math.ceil(Math.sqrt(count * 1.2))`, `Math.ceil(Math.sqrt(count * 1.5))`,
`Math.floor(gridSize * 0.6)`, `Math.floor(x / 2)` and `Math.ceil(x / 2)`
on small integer inputs; in the ranges reachable here (count up to 2^50,
gridSize at most 6) IEEE double evaluation agrees with exact rational
arithmetic, so they are embedded as exact integer formulas, noted at each
definition.
-/

/-- Discrete viewport class, set from `window.innerWidth` in
`src/unnamed/part_001` (`updateScreenSize`). -/
inductive Screen
  | mobile
  | tablet
  | laptop
  | desktop
deriving DecidableEq, Repr

/-- Helper for `ceilSqrt`: starting at candidate `k`, return the first
candidate whose square reaches `n`, given enough fuel to get there. -/
def ceilSqrtFrom (n : ℕ) : ℕ → ℕ → ℕ
  | k, 0 => k
  | k, fuel + 1 => if n ≤ k * k then k else ceilSqrtFrom n (k + 1) fuel

/-- Least `k` with `k * k ≥ n`; this is the exact value of
`Math.ceil(Math.sqrt(n))` for a natural number `n`. -/
def ceilSqrt (n : ℕ) : ℕ := ceilSqrtFrom n 0 (n + 1)

/-- Embedding of `getResponsiveGridSize` (src/unnamed/part_001, lines 36-44).
`Math.ceil(Math.sqrt(photoCount * 1.2))` is embedded as
`ceilSqrt ⌈6 * photoCount / 5⌉` (the ceiling of a rational `q` is reached by
the least integer square at least `q`, and `⌈6c/5⌉ = (6c+4)/5` in natural
division); similarly `1.5` becomes `⌈3c/2⌉ = (3c+1)/2`.  The source's
`baseSizes[screenSize] || 4` default is unreachable because `Screen`
enumerates exactly the four keys. -/
def getResponsiveGridSize (photoCount : ℕ) (screenSize : Screen) : ℕ :=
  match screenSize with
  | .mobile => min 3 (max 2 (ceilSqrt photoCount))
  | .tablet => min 4 (max 3 (ceilSqrt photoCount))
  | .laptop => min 5 (max 4 (ceilSqrt ((6 * photoCount + 4) / 5)))
  | .desktop => min 6 (max 4 (ceilSqrt ((3 * photoCount + 1) / 2)))

/-- One cell assignment of the mosaic plan, as pushed onto `layouts` by
`generateMosaicLayout` (src/unnamed/part_001): a size-class tag, the anchor
`row`/`col` (1-based) and the row/column spans. -/
structure Layout where
  size : String
  row : ℕ
  col : ℕ
  rowSpan : ℕ
  colSpan : ℕ
deriving DecidableEq, Repr

/-- A candidate span pattern from the `patterns` array of
`generateMosaicLayout`. -/
structure Pattern where
  size : String
  rowSpan : ℕ
  colSpan : ℕ
deriving DecidableEq, Repr

/-- The `patterns` list of `generateMosaicLayout`
(src/unnamed/part_001, lines 177-187): three patterns on mobile, five
otherwise. -/
def mosaicPatterns (screenSize : Screen) : List Pattern :=
  if screenSize = Screen.mobile then
    [⟨"medium", 1, 2⟩, ⟨"small", 1, 1⟩, ⟨"wide", 1, 3⟩]
  else
    [⟨"large", 2, 2⟩, ⟨"wide", 1, 3⟩, ⟨"tall", 3, 1⟩, ⟨"medium", 1, 2⟩,
     ⟨"small", 1, 1⟩]

/-- One cursor step of `generateMosaicLayout`:
`currentCol++; if (currentCol > gridSize) { currentCol = 1; currentRow++ }`. -/
def advanceCursor (gridSize : ℕ) (cur : ℕ × ℕ) : ℕ × ℕ :=
  if cur.2 + 1 > gridSize then (cur.1 + 1, 1) else (cur.1, cur.2 + 1)

theorem advanceCursor_fst_le (gridSize : ℕ) (x : ℕ × ℕ) :
    x.1 ≤ (advanceCursor gridSize x).1 := by
  unfold advanceCursor
  split <;> simp

theorem iterate_advanceCursor_fst_le (gridSize k : ℕ) (x : ℕ × ℕ) :
    x.1 ≤ ((advanceCursor gridSize)^[k] x).1 := by
  induction k generalizing x with
  | zero => simp
  | succ k ih =>
      rw [Function.iterate_succ_apply]
      exact le_trans (advanceCursor_fst_le gridSize x) (ih _)

theorem iterate_advanceCursor_row_incr (gridSize : ℕ) :
    ∀ (d : ℕ) (x : ℕ × ℕ), gridSize ≤ x.2 + d →
      x.1 + 1 ≤ ((advanceCursor gridSize)^[d + 1] x).1 := by
  intro d
  induction d with
  | zero =>
      intro x hx
      have h : x.2 + 1 > gridSize := by omega
      rw [Function.iterate_one]
      unfold advanceCursor
      rw [if_pos h]
  | succ d ih =>
      intro x hx
      rw [Function.iterate_succ_apply]
      by_cases h : x.2 + 1 > gridSize
      · have hadv : advanceCursor gridSize x = (x.1 + 1, 1) := by
          unfold advanceCursor
          rw [if_pos h]
        rw [hadv]
        exact iterate_advanceCursor_fst_le gridSize (d + 1) (x.1 + 1, 1)
      · have hadv : advanceCursor gridSize x = (x.1, x.2 + 1) := by
          unfold advanceCursor
          rw [if_neg h]
        rw [hadv]
        exact ih (x.1, x.2 + 1) (by simp; omega)

theorem iterate_advanceCursor_row_ge (gridSize : ℕ) :
    ∀ (m : ℕ) (x : ℕ × ℕ),
      x.1 + m ≤ ((advanceCursor gridSize)^[m * (gridSize + 1)] x).1 := by
  intro m
  induction m with
  | zero => simp
  | succ m ih =>
      intro x
      have hsplit : (m + 1) * (gridSize + 1)
          = m * (gridSize + 1) + (gridSize + 1) := by ring
      rw [hsplit, Function.iterate_add_apply]
      have h1 : x.1 + 1 ≤ ((advanceCursor gridSize)^[gridSize + 1] x).1 :=
        iterate_advanceCursor_row_incr gridSize gridSize x (by omega)
      have h2 := ih ((advanceCursor gridSize)^[gridSize + 1] x)
      omega

/-- The scan of `generateMosaicLayout` that skips occupied cells always
reaches a cell outside any finite occupied set: this is the termination
argument for the inner `while (occupiedCells.has(...))` loop. -/
theorem exists_advanceCursor_not_mem (gridSize : ℕ) (occ : Finset (ℕ × ℕ))
    (cur : ℕ × ℕ) : ∃ k, (advanceCursor gridSize)^[k] cur ∉ occ := by
  set M := occ.sup (fun p => p.1) with hM
  refine ⟨(M + 1) * (gridSize + 1), fun hmem => ?_⟩
  have hrow := iterate_advanceCursor_row_ge gridSize (M + 1) cur
  have hle : ((advanceCursor gridSize)^[(M + 1) * (gridSize + 1)] cur).1 ≤ M :=
    Finset.le_sup (f := fun p : ℕ × ℕ => p.1) hmem
  omega

/-- The inner cursor-advancing `while` loop of `generateMosaicLayout`
(src/unnamed/part_001, lines 198-204): starting from the current cursor,
step until the first cell not in `occupiedCells`. -/
def findFree (gridSize : ℕ) (occ : Finset (ℕ × ℕ)) (cur : ℕ × ℕ) : ℕ × ℕ :=
  (advanceCursor gridSize)^[Nat.find (exists_advanceCursor_not_mem gridSize occ cur)] cur

theorem findFree_not_mem (gridSize : ℕ) (occ : Finset (ℕ × ℕ))
    (cur : ℕ × ℕ) : findFree gridSize occ cur ∉ occ :=
  Nat.find_spec (exists_advanceCursor_not_mem gridSize occ cur)

/-- The rectangle of grid cells from `(r, c)` to `(endRow, endCol)`
inclusive, as scanned by the occupancy checks of `generateMosaicLayout`. -/
def rectCells (r c endRow endCol : ℕ) : Finset (ℕ × ℕ) :=
  Finset.Icc r endRow ×ˢ Finset.Icc c endCol

/-- The loop state of `generateMosaicLayout`: the `layouts` accumulator, the
`occupiedCells` set and the `(currentRow, currentCol)` cursor. -/
structure MosaicState where
  layouts : List Layout
  occupiedCells : Finset (ℕ × ℕ)
  cur : ℕ × ℕ

/-- One iteration of the `for (let i = 0; i < photoCount; i++)` loop of
`generateMosaicLayout` (src/unnamed/part_001, lines 194-266): pick the
pattern cyclically, move the cursor to the next free anchor, then either
fall back to a 1x1 cell (span leaves the grid), place the full pattern
(all its cells free), or fall back to a 1x1 cell (conflict). -/
def mosaicStep (gridSize : ℕ) (patterns : List Pattern) (st : MosaicState)
    (i : ℕ) : MosaicState :=
  let pattern := patterns.getD (i % patterns.length) ⟨"small", 1, 1⟩
  let anchor := findFree gridSize st.occupiedCells st.cur
  let endRow := anchor.1 + pattern.rowSpan - 1
  let endCol := anchor.2 + pattern.colSpan - 1
  if endRow > gridSize ∨ endCol > gridSize then
    { layouts := st.layouts ++ [⟨"small", anchor.1, anchor.2, 1, 1⟩],
      occupiedCells := insert anchor st.occupiedCells,
      cur := advanceCursor gridSize anchor }
  else if rectCells anchor.1 anchor.2 endRow endCol ∩ st.occupiedCells = ∅ then
    { layouts := st.layouts ++
        [⟨pattern.size, anchor.1, anchor.2, pattern.rowSpan, pattern.colSpan⟩],
      occupiedCells := st.occupiedCells ∪ rectCells anchor.1 anchor.2 endRow endCol,
      cur := advanceCursor gridSize anchor }
  else
    { layouts := st.layouts ++ [⟨"small", anchor.1, anchor.2, 1, 1⟩],
      occupiedCells := insert anchor st.occupiedCells,
      cur := advanceCursor gridSize anchor }

/-- Embedding of `generateMosaicLayout` (src/unnamed/part_001, lines
129-269).  `Math.floor(gridSize / 2)` is `gridSize / 2` in natural division;
`Math.floor(gridSize * 0.6)` equals `gridSize * 6 / 10` for every grid size
reachable here (2..6, checked against IEEE double rounding);
`Math.floor(mediumSpan / 2) || 1` maps a zero floor to 1;
`Math.ceil(mediumSpan / 2)` is `(mediumSpan + 1) / 2`.  For counts with no
early return (0 and ≥ 4) the `for` loop is a fold of `mosaicStep` over the
photo indices, starting from empty `layouts`, empty `occupiedCells` and
cursor `(1, 1)`. -/
def generateMosaicLayout (photoCount : ℕ) (screenSize : Screen) : List Layout :=
  let gridSize := getResponsiveGridSize photoCount screenSize
  if screenSize = Screen.mobile ∧ photoCount = 1 then
    [⟨"large", 1, 1, 2, 2⟩]
  else if screenSize = Screen.mobile ∧ photoCount = 2 then
    [⟨"medium", 1, 1, 1, 2⟩, ⟨"medium", 2, 1, 1, 2⟩]
  else if screenSize = Screen.mobile ∧ photoCount = 3 then
    [⟨"medium", 1, 1, 1, 2⟩, ⟨"small", 2, 1, 1, 1⟩, ⟨"small", 2, 2, 1, 1⟩]
  else if photoCount = 1 then
    let span := if screenSize = Screen.mobile then 2 else 4
    [⟨"large", 1, 1, span, span⟩]
  else if photoCount = 2 then
    let span := gridSize / 2
    [⟨"large", 1, 1, gridSize, span⟩,
     ⟨"large", 1, span + 1, gridSize, span⟩]
  else if photoCount = 3 then
    let largePan := gridSize * 6 / 10
    let mediumSpan := gridSize - largePan
    [⟨"large", 1, 1, largePan, largePan⟩,
     ⟨"medium", 1, largePan + 1,
       if mediumSpan / 2 = 0 then 1 else mediumSpan / 2, mediumSpan⟩,
     ⟨"medium", mediumSpan / 2 + 2, largePan + 1, (mediumSpan + 1) / 2,
       mediumSpan⟩]
  else
    ((List.range photoCount).foldl
      (mosaicStep gridSize (mosaicPatterns screenSize))
      ⟨[], ∅, (1, 1)⟩).layouts

/-- Container shape returned by `getLayoutConfig`
(src/unnamed/part_000): rows, cols and the styling tag. -/
structure LayoutConfig where
  rows : ℕ
  cols : ℕ
  type : String
deriving DecidableEq, Repr

/-- Embedding of `getLayoutConfig` (src/unnamed/part_000, lines 96-121).
The final branch computes `Math.ceil(Math.sqrt(photoCount))`, embedded as
`ceilSqrt photoCount`. -/
def getLayoutConfig (photoCount : ℕ) : LayoutConfig :=
  if photoCount ≤ 1 then ⟨1, 1, "single"⟩
  else if photoCount ≤ 4 then ⟨2, 2, "grid"⟩
  else if photoCount ≤ 6 then ⟨2, 3, "grid"⟩
  else if photoCount ≤ 9 then ⟨3, 3, "complex"⟩
  else if photoCount ≤ 12 then ⟨3, 4, "complex"⟩
  else if photoCount ≤ 16 then ⟨4, 4, "complex"⟩
  else if photoCount ≤ 20 then ⟨4, 5, "ultra"⟩
  else if photoCount ≤ 25 then ⟨5, 5, "ultra"⟩
  else if photoCount ≤ 30 then ⟨5, 6, "mega"⟩
  else if photoCount ≤ 36 then ⟨6, 6, "mega"⟩
  else if photoCount ≤ 42 then ⟨6, 7, "extreme"⟩
  else if photoCount ≤ 49 then ⟨7, 7, "extreme"⟩
  else if photoCount ≤ 56 then ⟨7, 8, "insane"⟩
  else if photoCount ≤ 64 then ⟨8, 8, "insane"⟩
  else if photoCount ≤ 81 then ⟨9, 9, "infinite"⟩
  else if photoCount ≤ 100 then ⟨10, 10, "infinite"⟩
  else ⟨ceilSqrt photoCount, ceilSqrt photoCount, "infinite"⟩

/-- Embedding of `getGridPosition` (src/unnamed/part_000, lines 126-137).
The source returns the row and column as CSS strings; they are modelled as
the numbers those strings denote.  The `orientation` argument of the source
is unused by the function body and omitted. -/
def getGridPosition (index : ℕ) (config : LayoutConfig) : ℕ × ℕ :=
  if config.type = "single" then (1, 1)
  else (index / config.cols + 1, index % config.cols + 1)

/-- Embedding of `getGridSize` (src/src/App.jsx, lines 108-116). -/
def getGridSize (photoCount : ℕ) : ℕ :=
  if photoCount = 1 then 1
  else if photoCount ≤ 4 then 2
  else if photoCount ≤ 9 then 3
  else if photoCount ≤ 16 then 4
  else if photoCount ≤ 25 then 5
  else 6

/-- The photo indices that `downloadCollage` (src/src/App.jsx, lines
152-177) clones into the export container: its loop over `photos` keeps
exactly the indices with `index < gridSize * gridSize`. -/
def downloadPlacedIndices (photoCount : ℕ) : List ℕ :=
  (List.range photoCount).filter
    (fun index => index < getGridSize photoCount * getGridSize photoCount)

/-- A photo record as built by `capturePhoto` / `handleFileUpload`
(src/unnamed/part_000, lines 14-63).  Ids are JavaScript numbers
(`Date.now()` optionally plus `Math.random()`), modelled as rationals;
image payloads and timestamps are opaque strings. -/
structure Photo where
  id : ℚ
  src : String
  timestamp : String
  aspectRatio : ℚ
  orientation : String
  width : ℕ
  height : ℕ
deriving DecidableEq, Repr

/-- Orientation derived from the aspect ratio, as in the ingestion handlers:
landscape above 1, portrait below 1, square at exactly 1. -/
def orientationOf (aspectRatio : ℚ) : String :=
  if aspectRatio > 1 then "landscape"
  else if aspectRatio < 1 then "portrait"
  else "square"

/-- Photo appended by `capturePhoto` (src/unnamed/part_000 lines 14-35):
its id is the current clock value `Date.now()`, supplied here as the model
input `now`. -/
def mkCapturedPhoto (now : ℚ) (src timestamp : String) (width height : ℕ) :
    Photo :=
  { id := now
    src := src
    timestamp := timestamp
    aspectRatio := (width : ℚ) / (height : ℚ)
    orientation := orientationOf ((width : ℚ) / (height : ℚ))
    width := width
    height := height }

/-- Photo appended by `handleFileUpload` (src/unnamed/part_000 lines 38-63)
and by `addPhoto` (src/src/App.jsx lines 23-29): its id is
`Date.now() + Math.random()`, with the clock and the random draw supplied
as the model inputs `now` and `rand`. -/
def mkUploadedPhoto (now rand : ℚ) (src timestamp : String)
    (width height : ℕ) : Photo :=
  { id := now + rand
    src := src
    timestamp := timestamp
    aspectRatio := (width : ℚ) / (height : ℚ)
    orientation := orientationOf ((width : ℚ) / (height : ℚ))
    width := width
    height := height }

/-- Embedding of `removePhoto` (src/unnamed/part_000 lines 66-68 and
src/src/App.jsx lines 118-120): keep the photos whose id differs from the
given one. -/
def removePhoto (id : ℚ) (photos : List Photo) : List Photo :=
  photos.filter (fun photo => photo.id ≠ id)

/-- One ingestion or collection event of a session, with the clock and the
random source modelled as event inputs. -/
inductive AppEvent
  | capture (now : ℚ) (src timestamp : String) (width height : ℕ)
  | upload (now rand : ℚ) (src timestamp : String) (width height : ℕ)
  | removeById (id : ℚ)
  | clearAll

/-- Effect of one event on the photo collection: captures and uploads
append (`setPhotos(prev => [...prev, newPhoto])`), `removePhoto` filters,
`clearAllPhotos` resets to the empty list. -/
def applyEvent (photos : List Photo) (e : AppEvent) : List Photo :=
  match e with
  | .capture now src timestamp w h => photos ++ [mkCapturedPhoto now src timestamp w h]
  | .upload now rand src timestamp w h => photos ++ [mkUploadedPhoto now rand src timestamp w h]
  | .removeById id => removePhoto id photos
  | .clearAll => []

/-- The photo collection after a sequence of session events, starting from
the initial empty `useState([])`. -/
def photosAfter (events : List AppEvent) : List Photo :=
  events.foldl applyEvent []

/-- The mosaic placement plan the render pass computes after a sequence of
events: part_001 recomputes `generateMosaicLayout(photos.length)` on every
render, with no state carried over between invocations (its `layouts` and
`occupiedCells` are fresh local objects of each call). -/
def planAfter (events : List AppEvent) (screenSize : Screen) : List Layout :=
  generateMosaicLayout (photosAfter events).length screenSize

/-- The set of grid cells covered by one mosaic cell assignment. -/
def cellsOf (L : Layout) : Finset (ℕ × ℕ) :=
  rectCells L.row L.col (L.row + L.rowSpan - 1) (L.col + L.colSpan - 1)

/-- Two assignments occupy disjoint cell rectangles. -/
def cellDisjoint (L1 L2 : Layout) : Prop :=
  cellsOf L1 ∩ cellsOf L2 = ∅

instance : DecidablePred fun p : Layout × Layout => cellDisjoint p.1 p.2 :=
  fun p => by unfold cellDisjoint; infer_instance

instance (L1 L2 : Layout) : Decidable (cellDisjoint L1 L2) := by
  unfold cellDisjoint; infer_instance

/-- Loop invariant of `generateMosaicLayout`: every placed assignment only
covers cells recorded in `occupiedCells`, and the placed assignments are
pairwise cell-disjoint. -/
def MosaicInv (st : MosaicState) : Prop :=
  (∀ L ∈ st.layouts, cellsOf L ⊆ st.occupiedCells) ∧
  List.Pairwise cellDisjoint st.layouts

/-- Lower grid-size bound of each viewport class (the `Math.max` clamp of
`getResponsiveGridSize`). -/
def classMinSize (s : Screen) : ℕ :=
  match s with
  | .mobile => 2
  | .tablet => 3
  | .laptop => 4
  | .desktop => 4

/-- Upper grid-size bound of each viewport class (the `Math.min` clamp of
`getResponsiveGridSize`). -/
def classMaxSize (s : Screen) : ℕ :=
  match s with
  | .mobile => 3
  | .tablet => 4
  | .laptop => 5
  | .desktop => 6

/-- Photo-count ceiling up to which each viewport class of
`getResponsiveGridSize` still provides `gridSize * gridSize ≥ count`:
the square of the upper clamp. -/
def classCapacity (s : Screen) : ℕ :=
  classMaxSize s * classMaxSize s

theorem cellsOf_small (s : String) (r c : ℕ) :
    cellsOf ⟨s, r, c, 1, 1⟩ = {(r, c)} := by
  unfold cellsOf rectCells
  simp

theorem mosaicInv_extend (st : MosaicState) (L : Layout)
    (newOcc : Finset (ℕ × ℕ)) (cur : ℕ × ℕ) (h : MosaicInv st)
    (hmono : st.occupiedCells ⊆ newOcc)
    (hcells : cellsOf L ⊆ newOcc)
    (hfresh : ∀ x ∈ cellsOf L, x ∉ st.occupiedCells) :
    MosaicInv ⟨st.layouts ++ [L], newOcc, cur⟩ := by
  constructor
  · intro L2 hL2
    rcases List.mem_append.mp hL2 with h2 | h2
    · exact Finset.Subset.trans (h.1 L2 h2) hmono
    · simp only [List.mem_singleton] at h2
      subst h2
      exact hcells
  · rw [List.pairwise_append]
    refine ⟨h.2, List.pairwise_singleton _ _, ?_⟩
    intro a ha b hb
    simp only [List.mem_singleton] at hb
    subst hb
    unfold cellDisjoint
    rw [Finset.eq_empty_iff_forall_not_mem]
    intro x hx
    rcases Finset.mem_inter.mp hx with ⟨hxa, hxL⟩
    exact hfresh x hxL (h.1 a ha hxa)

theorem mosaicStep_inv (gridSize : ℕ) (patterns : List Pattern)
    (st : MosaicState) (i : ℕ) (h : MosaicInv st) :
    MosaicInv (mosaicStep gridSize patterns st i) := by
  have hfree := findFree_not_mem gridSize st.occupiedCells st.cur
  simp only [mosaicStep]
  split
  · apply mosaicInv_extend st _ _ _ h (Finset.subset_insert _ _)
    · rw [cellsOf_small]
      intro x hx
      simp only [Finset.mem_singleton] at hx
      subst hx
      simp
    · intro x hx
      rw [cellsOf_small] at hx
      simp only [Finset.mem_singleton] at hx
      subst hx
      exact hfree
  · split
    · next hcond =>
        apply mosaicInv_extend st _ _ _ h Finset.subset_union_left
        · exact Finset.subset_union_right
        · intro x hx hxocc
          have : x ∈ rectCells (findFree gridSize st.occupiedCells st.cur).1
              (findFree gridSize st.occupiedCells st.cur).2 _ _ ∩ st.occupiedCells :=
            Finset.mem_inter.mpr ⟨hx, hxocc⟩
          rw [hcond] at this
          exact absurd this (Finset.not_mem_empty x)
    · apply mosaicInv_extend st _ _ _ h (Finset.subset_insert _ _)
      · rw [cellsOf_small]
        intro x hx
        simp only [Finset.mem_singleton] at hx
        subst hx
        simp
      · intro x hx
        rw [cellsOf_small] at hx
        simp only [Finset.mem_singleton] at hx
        subst hx
        exact hfree

theorem mosaicStep_layouts_length (gridSize : ℕ) (patterns : List Pattern)
    (st : MosaicState) (i : ℕ) :
    (mosaicStep gridSize patterns st i).layouts.length
      = st.layouts.length + 1 := by
  simp only [mosaicStep]
  split
  · simp
  · split <;> simp

theorem mosaicLoop_inv (gridSize : ℕ) (patterns : List Pattern)
    (l : List ℕ) :
    ∀ (st : MosaicState), MosaicInv st →
      MosaicInv (l.foldl (mosaicStep gridSize patterns) st) := by
  induction l with
  | nil => intro st h; exact h
  | cons a l ih =>
      intro st h
      rw [List.foldl_cons]
      exact ih _ (mosaicStep_inv gridSize patterns st a h)

theorem mosaicLoop_length (gridSize : ℕ) (patterns : List Pattern)
    (l : List ℕ) :
    ∀ (st : MosaicState),
      ((l.foldl (mosaicStep gridSize patterns) st).layouts).length
        = st.layouts.length + l.length := by
  induction l with
  | nil => intro st; simp
  | cons a l ih =>
      intro st
      rw [List.foldl_cons, ih]
      rw [mosaicStep_layouts_length]
      simp
      omega

theorem generateMosaicLayout_loop (photoCount : ℕ) (screenSize : Screen)
    (h1 : photoCount ≠ 1) (h2 : photoCount ≠ 2) (h3 : photoCount ≠ 3) :
    generateMosaicLayout photoCount screenSize =
      ((List.range photoCount).foldl
        (mosaicStep (getResponsiveGridSize photoCount screenSize)
          (mosaicPatterns screenSize)) ⟨[], ∅, (1, 1)⟩).layouts := by
  simp only [generateMosaicLayout]
  repeat rw [if_neg (by omega)]

theorem ceilSqrtFrom_ge (n : ℕ) :
    ∀ (fuel k : ℕ), n ≤ (k + fuel) * (k + fuel) →
      n ≤ ceilSqrtFrom n k fuel * ceilSqrtFrom n k fuel := by
  intro fuel
  induction fuel with
  | zero =>
      intro k h
      simpa [ceilSqrtFrom] using h
  | succ fuel ih =>
      intro k h
      simp only [ceilSqrtFrom]
      split
      · next hle => exact hle
      · apply ih (k + 1)
        have heq : k + (fuel + 1) = (k + 1) + fuel := by omega
        rw [heq] at h
        exact h

theorem ceilSqrtFrom_start_le (n : ℕ) :
    ∀ (fuel k : ℕ), k ≤ ceilSqrtFrom n k fuel := by
  intro fuel
  induction fuel with
  | zero =>
      intro k
      simp [ceilSqrtFrom]
  | succ fuel ih =>
      intro k
      simp only [ceilSqrtFrom]
      split
      · exact le_refl k
      · exact le_trans (by omega) (ih (k + 1))

theorem ceilSqrt_spec (n : ℕ) : n ≤ ceilSqrt n * ceilSqrt n := by
  have h2 : (n + 1) ≤ (n + 1) * (n + 1) :=
    Nat.le_mul_of_pos_left (n + 1) (by omega)
  have h : n ≤ (0 + (n + 1)) * (0 + (n + 1)) := by
    rw [Nat.zero_add]
    exact le_trans (Nat.le_succ n) h2
  exact ceilSqrtFrom_ge n (n + 1) 0 h

theorem ceilSqrt_pos (n : ℕ) (h : 1 ≤ n) : 1 ≤ ceilSqrt n := by
  unfold ceilSqrt
  have hstep : ceilSqrtFrom n 0 (n + 1) = ceilSqrtFrom n 1 n := by
    simp only [ceilSqrtFrom]
    rw [if_neg (by omega)]
  rw [hstep]
  exact ceilSqrtFrom_start_le n n 1

theorem getLayoutConfig_facts (photoCount : ℕ) :
    0 < (getLayoutConfig photoCount).rows ∧
    0 < (getLayoutConfig photoCount).cols ∧
    photoCount ≤ (getLayoutConfig photoCount).rows * (getLayoutConfig photoCount).cols ∧
    (2 ≤ photoCount → (getLayoutConfig photoCount).type ≠ "single") ∧
    (photoCount ≤ 1 → getLayoutConfig photoCount = ⟨1, 1, "single"⟩) := by
  by_cases h : photoCount ≤ 100
  · have hall : ∀ c < 101,
        0 < (getLayoutConfig c).rows ∧
        0 < (getLayoutConfig c).cols ∧
        c ≤ (getLayoutConfig c).rows * (getLayoutConfig c).cols ∧
        (2 ≤ c → (getLayoutConfig c).type ≠ "single") ∧
        (c ≤ 1 → getLayoutConfig c = ⟨1, 1, "single"⟩) := by decide
    exact hall photoCount (by omega)
  · unfold getLayoutConfig
    repeat rw [if_neg (by omega)]
    have hpos : 1 ≤ ceilSqrt photoCount := ceilSqrt_pos photoCount (by omega)
    refine ⟨hpos, hpos, ceilSqrt_spec photoCount, fun _ => by dsimp only; decide,
      fun h1 => absurd h1 (by omega)⟩

theorem filter_range_lt_eq (m : ℕ) :
    ∀ (n : ℕ), m ≤ n →
      (List.range n).filter (fun i => decide (i < m)) = List.range m := by
  intro n
  induction n with
  | zero =>
      intro h
      have hm : m = 0 := by omega
      subst hm
      rfl
  | succ n ih =>
      intro h
      by_cases hm : m = n + 1
      · subst hm
        apply List.filter_eq_self.mpr
        intro a ha
        simp only [List.mem_range] at ha
        simpa using ha
      · have h2 : m ≤ n := by omega
        rw [List.range_succ, List.filter_append, ih h2]
        have hlast : List.filter (fun i => decide (i < m)) [n] = [] := by
          simp only [List.filter]
          rw [decide_eq_false (by omega)]
        rw [hlast, List.append_nil]

theorem getGridPosition_eq_formula (index : ℕ) (config : LayoutConfig)
    (htype : config.type ≠ "single") :
    getGridPosition index config
      = (index / config.cols + 1, index % config.cols + 1) := by
  unfold getGridPosition
  rw [if_neg htype]

theorem getGridPosition_inj (config : LayoutConfig)
    (htype : config.type ≠ "single") (i j : ℕ) (hne : i ≠ j) :
    getGridPosition i config ≠ getGridPosition j config := by
  intro heq
  rw [getGridPosition_eq_formula i config htype,
      getGridPosition_eq_formula j config htype] at heq
  have h1 : i / config.cols = j / config.cols := by
    have := congrArg Prod.fst heq
    simpa using this
  have h2 : i % config.cols = j % config.cols := by
    have := congrArg Prod.snd heq
    simpa using this
  apply hne
  calc i = config.cols * (i / config.cols) + i % config.cols :=
        (Nat.div_add_mod i config.cols).symm
    _ = config.cols * (j / config.cols) + j % config.cols := by rw [h1, h2]
    _ = j := Nat.div_add_mod j config.cols

/-- C1 (counterexample): the capacity invariant fails for the responsive
Size-Class Selector: at `photoCount = 10` on mobile the grid size is
clamped to 3, whose 9 cells are fewer than the 10 photos. -/
theorem sizeclass_capacity_counterexample :
    getResponsiveGridSize 10 Screen.mobile *
      getResponsiveGridSize 10 Screen.mobile < 10 := by decide

/-- C1 (amended): `getLayoutConfig` satisfies `rows * cols ≥ count` for all
counts; `getResponsiveGridSize` satisfies `gridSize² ≥ count` only up to
each viewport class capacity (9 mobile, 16 tablet, 25 laptop, 36 desktop);
`getGridSize` satisfies it only for counts up to 36. -/
theorem sizeclass_capacity_amended :
    (∀ photoCount : ℕ, photoCount ≤
      (getLayoutConfig photoCount).rows * (getLayoutConfig photoCount).cols) ∧
    (∀ (photoCount : ℕ) (s : Screen), photoCount ≤ classCapacity s →
      photoCount ≤ getResponsiveGridSize photoCount s *
        getResponsiveGridSize photoCount s) ∧
    (∀ photoCount : ℕ, photoCount ≤ 36 →
      photoCount ≤ getGridSize photoCount * getGridSize photoCount) := by
  refine ⟨fun c => (getLayoutConfig_facts c).2.2.1, ?_, ?_⟩
  · intro c s hc
    cases s with
    | mobile =>
        have hc9 : c ≤ 9 := by
          simpa [classCapacity, classMaxSize] using hc
        have hall : ∀ c < 10, c ≤ getResponsiveGridSize c Screen.mobile *
            getResponsiveGridSize c Screen.mobile := by decide
        exact hall c (by omega)
    | tablet =>
        have hc16 : c ≤ 16 := by
          simpa [classCapacity, classMaxSize] using hc
        have hall : ∀ c < 17, c ≤ getResponsiveGridSize c Screen.tablet *
            getResponsiveGridSize c Screen.tablet := by decide
        exact hall c (by omega)
    | laptop =>
        have hc25 : c ≤ 25 := by
          simpa [classCapacity, classMaxSize] using hc
        have hall : ∀ c < 26, c ≤ getResponsiveGridSize c Screen.laptop *
            getResponsiveGridSize c Screen.laptop := by decide
        exact hall c (by omega)
    | desktop =>
        have hc36 : c ≤ 36 := by
          simpa [classCapacity, classMaxSize] using hc
        have hall : ∀ c < 37, c ≤ getResponsiveGridSize c Screen.desktop *
            getResponsiveGridSize c Screen.desktop := by decide
        exact hall c (by omega)
  · intro c hc
    have hall : ∀ c < 37, c ≤ getGridSize c * getGridSize c := by decide
    exact hall c (by omega)

theorem sizeclass_capacity_amended_witness :
    (20 : ℕ) ≤ getResponsiveGridSize 20 Screen.desktop *
      getResponsiveGridSize 20 Screen.desktop :=
  sizeclass_capacity_amended.2.1 20 Screen.desktop (by decide)

/-- C4 (counterexample): `getGridPosition` does not follow the row-major
formula for every config with `cols ≥ 1`: a config of type "single" returns
`(1, 1)` at every index, so index 1 with a 1-column single config yields
`(1, 1)` instead of `(2, 1)`. -/
theorem uniform_position_counterexample :
    ¬ ∀ (index : ℕ) (config : LayoutConfig), 1 ≤ config.cols →
        getGridPosition index config
          = (index / config.cols + 1, index % config.cols + 1) := by
  intro h
  exact absurd (h 1 ⟨1, 1, "single"⟩ (by decide)) (by decide)

/-- C4 (amended): for every config with `cols ≥ 1` whose type furthermore
is not "single" (the formula branch of `getGridPosition`; the "single"
branch returns (1, 1) regardless of index), the placer returns exactly
`row = ⌊index / cols⌋ + 1`, `col = (index mod cols) + 1`, distinct indices
get distinct cells, and the assignment is a pure function of the index and
the config.  The `cols ≥ 1` hypothesis of the original claim is kept:
at `cols = 0` the source would compute Infinity/NaN positions, which the
natural-number embedding does not model. -/
theorem uniform_position_formula (config : LayoutConfig)
    (_hcols : 1 ≤ config.cols) (htype : config.type ≠ "single") :
    (∀ index : ℕ, getGridPosition index config
        = (index / config.cols + 1, index % config.cols + 1)) ∧
    (∀ i j : ℕ, i ≠ j →
      getGridPosition i config ≠ getGridPosition j config) :=
  ⟨fun index => getGridPosition_eq_formula index config htype,
   fun i j hne => getGridPosition_inj config htype i j hne⟩

theorem uniform_position_formula_witness :
    getGridPosition 5 ⟨2, 2, "grid"⟩ = (3, 2) ∧
    getGridPosition 1 ⟨2, 2, "grid"⟩ ≠ getGridPosition 2 ⟨2, 2, "grid"⟩ := by
  constructor
  · have h := (uniform_position_formula ⟨2, 2, "grid"⟩ (by decide) (by decide)).1 5
    simpa using h
  · exact (uniform_position_formula ⟨2, 2, "grid"⟩ (by decide) (by decide)).2 1 2
      (by decide)

/-- C5: the uniform selector maps 1 to 1, 2..4 to 2, 5..9 to 3, 10..16 to
4, 17..25 to 5 and everything above 25 to 6; and for counts above 36 the
export loop of `downloadCollage` places exactly the photo indices below
`gridSize * gridSize = 36` and drops all later photos. -/
theorem uniform_size_steps_and_truncation :
    getGridSize 1 = 1 ∧
    (∀ c, 2 ≤ c → c ≤ 4 → getGridSize c = 2) ∧
    (∀ c, 5 ≤ c → c ≤ 9 → getGridSize c = 3) ∧
    (∀ c, 10 ≤ c → c ≤ 16 → getGridSize c = 4) ∧
    (∀ c, 17 ≤ c → c ≤ 25 → getGridSize c = 5) ∧
    (∀ c, 26 ≤ c → getGridSize c = 6) ∧
    (∀ c, 36 < c → downloadPlacedIndices c = List.range 36) := by
  have h6 : ∀ c, 26 ≤ c → getGridSize c = 6 := by
    intro c hc
    unfold getGridSize
    repeat rw [if_neg (by omega)]
  refine ⟨rfl, ?_, ?_, ?_, ?_, h6, ?_⟩
  · intro c hl hu; interval_cases c <;> rfl
  · intro c hl hu; interval_cases c <;> rfl
  · intro c hl hu; interval_cases c <;> rfl
  · intro c hl hu; interval_cases c <;> rfl
  · intro c hc
    unfold downloadPlacedIndices
    rw [h6 c (by omega)]
    exact filter_range_lt_eq 36 c (by omega)

theorem uniform_size_steps_and_truncation_witness :
    getGridSize 3 = 2 ∧ downloadPlacedIndices 37 = List.range 36 :=
  ⟨uniform_size_steps_and_truncation.2.1 3 (by decide) (by decide),
   uniform_size_steps_and_truncation.2.2.2.2.2.2 37 (by decide)⟩

/-- C6 (counterexample): under the mosaic strategy with one photo on a
tablet viewport, the grid size is 3 but the single assignment spans the
hard-coded 4, so it does not span the full grid (and overflows it). -/
theorem mosaic_single_fullgrid_counterexample :
    getResponsiveGridSize 1 Screen.tablet = 3 ∧
    generateMosaicLayout 1 Screen.tablet = [⟨"large", 1, 1, 4, 4⟩] ∧
    (4 : ℕ) ≠ 3 := by
  refine ⟨rfl, rfl, by decide⟩

/-- C6 (amended): for one photo on mobile, laptop and desktop viewports the
plan is a single assignment anchored at (1,1) spanning the full grid; on
tablet the span is the hard-coded 4 while the grid size is 3. -/
theorem mosaic_single_fullgrid_amended (s : Screen) (h : s ≠ Screen.tablet) :
    generateMosaicLayout 1 s =
      [⟨"large", 1, 1, getResponsiveGridSize 1 s,
        getResponsiveGridSize 1 s⟩] := by
  cases s with
  | mobile => rfl
  | tablet => exact absurd rfl h
  | laptop => rfl
  | desktop => rfl

theorem mosaic_single_fullgrid_amended_witness :
    generateMosaicLayout 1 Screen.mobile =
      [⟨"large", 1, 1, getResponsiveGridSize 1 Screen.mobile,
        getResponsiveGridSize 1 Screen.mobile⟩] :=
  mosaic_single_fullgrid_amended Screen.mobile (by decide)

/-- C8: `removePhoto` removes exactly the photos whose id equals the given
id, keeps all others in their original relative order (it is a sublist of
the input), and is a no-op when no photo carries the id. -/
theorem removePhoto_removes_exactly (id : ℚ) (photos : List Photo) :
    (removePhoto id photos).Sublist photos ∧
    (∀ p ∈ removePhoto id photos, p.id ≠ id) ∧
    (∀ p ∈ photos, p.id ≠ id → p ∈ removePhoto id photos) ∧
    ((∀ p ∈ photos, p.id ≠ id) → removePhoto id photos = photos) := by
  refine ⟨List.filter_sublist photos, ?_, ?_, ?_⟩
  · intro p hp
    have h := List.of_mem_filter hp
    simpa using h
  · intro p hp hne
    exact List.mem_filter.mpr ⟨hp, by simpa using hne⟩
  · intro hall
    apply List.filter_eq_self.mpr
    intro a ha
    simpa using hall a ha

theorem removePhoto_removes_exactly_witness :
    removePhoto 5 [⟨7, "s", "t", 1, "square", 2, 2⟩]
      = [⟨7, "s", "t", 1, "square", 2, 2⟩] :=
  (removePhoto_removes_exactly 5 [⟨7, "s", "t", 1, "square", 2, 2⟩]).2.2.2
    (by intro p hp; simp at hp; subst hp; decide)

/-- C9: evaluating the ingestion model at the failing input, two camera
captures in the same millisecond (`Date.now()` returning 1000 twice), the
two photos in the active collection carry the same id, contradicting the
required uniqueness. -/
theorem capture_same_millisecond_id_collision :
    ((photosAfter [AppEvent.capture 1000 "frameA" "t1" 4 3,
        AppEvent.capture 1000 "frameB" "t2" 4 3]).map Photo.id)
      = [1000, 1000] ∧
    ¬ List.Nodup ((photosAfter [AppEvent.capture 1000 "frameA" "t1" 4 3,
        AppEvent.capture 1000 "frameB" "t2" 4 3]).map Photo.id) := by
  have hmap : ((photosAfter [AppEvent.capture 1000 "frameA" "t1" 4 3,
      AppEvent.capture 1000 "frameB" "t2" 4 3]).map Photo.id)
        = [1000, 1000] := rfl
  refine ⟨hmap, ?_⟩
  rw [hmap]
  intro h
  exact (List.nodup_cons.mp h).1 (List.mem_singleton.mpr rfl)

/-- C7: layout computation is pure: the plan the render pass computes after
any sequence of session events depends only on the resulting photo count
(and the viewport class), never on the invocation history — each call of
`generateMosaicLayout` starts from fresh `layouts` and `occupiedCells`. -/
theorem mosaic_plan_pure_in_count (events1 events2 : List AppEvent)
    (screenSize : Screen)
    (h : (photosAfter events1).length = (photosAfter events2).length) :
    planAfter events1 screenSize = planAfter events2 screenSize := by
  unfold planAfter
  rw [h]

theorem mosaic_plan_pure_in_count_witness :
    planAfter [AppEvent.capture 7 "a" "t" 2 2] Screen.desktop =
      planAfter [AppEvent.capture 1 "b" "t" 2 2,
        AppEvent.capture 2 "c" "t" 3 2,
        AppEvent.removeById 1] Screen.desktop :=
  mosaic_plan_pure_in_count _ _ Screen.desktop (by rfl)

/-- C10: for every photo count, `getResponsiveGridSize` stays within the
fixed per-class clamp bounds ([2,3] mobile, [3,4] tablet, [4,5] laptop,
[4,6] desktop), so the responsive grid capacity never exceeds 36 cells,
and never exceeds 9 on mobile. -/
theorem responsive_grid_size_bounded (photoCount : ℕ) (s : Screen) :
    classMinSize s ≤ getResponsiveGridSize photoCount s ∧
    getResponsiveGridSize photoCount s ≤ classMaxSize s ∧
    getResponsiveGridSize photoCount s *
      getResponsiveGridSize photoCount s ≤ 36 ∧
    (s = Screen.mobile →
      getResponsiveGridSize photoCount s *
        getResponsiveGridSize photoCount s ≤ 9) := by
  have hle : getResponsiveGridSize photoCount s ≤ classMaxSize s := by
    cases s <;> simp only [getResponsiveGridSize, classMaxSize] <;> omega
  have hge : classMinSize s ≤ getResponsiveGridSize photoCount s := by
    cases s <;> simp only [getResponsiveGridSize, classMinSize] <;> omega
  have hmax6 : classMaxSize s ≤ 6 := by cases s <;> decide
  refine ⟨hge, hle, ?_, fun hs => ?_⟩
  · calc getResponsiveGridSize photoCount s *
        getResponsiveGridSize photoCount s
        ≤ 6 * 6 := Nat.mul_le_mul (le_trans hle hmax6) (le_trans hle hmax6)
      _ = 36 := rfl
  · subst hs
    have h3 : getResponsiveGridSize photoCount Screen.mobile ≤ 3 :=
      le_trans hle (by decide)
    calc getResponsiveGridSize photoCount Screen.mobile *
        getResponsiveGridSize photoCount Screen.mobile
        ≤ 3 * 3 := Nat.mul_le_mul h3 h3
      _ = 9 := rfl

theorem responsive_grid_size_bounded_witness :
    getResponsiveGridSize 100 Screen.mobile *
      getResponsiveGridSize 100 Screen.mobile ≤ 9 :=
  (responsive_grid_size_bounded 100 Screen.mobile).2.2.2 rfl

theorem mosaicInv_init : MosaicInv ⟨[], ∅, (1, 1)⟩ :=
  ⟨fun L hL => absurd hL (List.not_mem_nil L), List.Pairwise.nil⟩

/-- C3: the mosaic placer is total: for every photo count and viewport
class it terminates with exactly one placement per photo (the plan has
length `photoCount`), and its inner cell-skipping scan always exits (the
cursor reaches a cell outside any finite occupied set). -/
theorem mosaic_layout_total :
    (∀ (photoCount : ℕ) (screenSize : Screen),
      (generateMosaicLayout photoCount screenSize).length = photoCount) ∧
    (∀ (gridSize : ℕ) (occ : Finset (ℕ × ℕ)) (cur : ℕ × ℕ),
      ∃ k, (advanceCursor gridSize)^[k] cur ∉ occ) := by
  refine ⟨?_, exists_advanceCursor_not_mem⟩
  intro photoCount screenSize
  rcases photoCount with _ | _ | _ | _ | n
  · rw [generateMosaicLayout_loop 0 screenSize (by omega) (by omega) (by omega),
        mosaicLoop_length]
    simp
  · cases screenSize <;> rfl
  · cases screenSize <;> rfl
  · cases screenSize <;> rfl
  · rw [generateMosaicLayout_loop (n + 4) screenSize (by omega) (by omega)
        (by omega), mosaicLoop_length]
    simp

/-- C2 (counterexample): not every assignment lies within the grid: with
one photo on a tablet viewport, the single assignment reaches row 4 of a
3x3 grid. -/
theorem plan_bounds_counterexample :
    ∃ L ∈ generateMosaicLayout 1 Screen.tablet,
      getResponsiveGridSize 1 Screen.tablet < L.row + L.rowSpan - 1 := by
  decide

/-- C2 (amended): the disjointness half holds unconditionally for the
mosaic packer (no two assignments of any plan overlap), and the uniform
placer satisfies both halves: for indices below the photo count its 1x1
cells lie within `[1, rows] x [1, cols]` of `getLayoutConfig` and are
pairwise distinct.  In-bounds fails for the mosaic packer (count 1 on
tablet; overflow rows once spans exhaust the grid). -/
theorem plan_disjoint_amended :
    (∀ (photoCount : ℕ) (screenSize : Screen),
      List.Pairwise cellDisjoint (generateMosaicLayout photoCount screenSize)) ∧
    (∀ photoCount index : ℕ, index < photoCount →
      1 ≤ (getGridPosition index (getLayoutConfig photoCount)).1 ∧
      (getGridPosition index (getLayoutConfig photoCount)).1
        ≤ (getLayoutConfig photoCount).rows ∧
      1 ≤ (getGridPosition index (getLayoutConfig photoCount)).2 ∧
      (getGridPosition index (getLayoutConfig photoCount)).2
        ≤ (getLayoutConfig photoCount).cols) ∧
    (∀ photoCount i j : ℕ, i < photoCount → j < photoCount → i ≠ j →
      getGridPosition i (getLayoutConfig photoCount)
        ≠ getGridPosition j (getLayoutConfig photoCount)) := by
  refine ⟨?_, ?_, ?_⟩
  · intro photoCount screenSize
    rcases photoCount with _ | _ | _ | _ | n
    · rw [generateMosaicLayout_loop 0 screenSize (by omega) (by omega)
          (by omega)]
      exact (mosaicLoop_inv _ _ _ _ mosaicInv_init).2
    · cases screenSize <;> decide
    · cases screenSize <;> decide
    · cases screenSize <;> decide
    · rw [generateMosaicLayout_loop (n + 4) screenSize (by omega) (by omega)
          (by omega)]
      exact (mosaicLoop_inv _ _ _ _ mosaicInv_init).2
  · intro photoCount index hlt
    obtain ⟨hr, hc, hcap, hsingle, hsmall⟩ := getLayoutConfig_facts photoCount
    by_cases h1 : photoCount ≤ 1
    · rw [hsmall h1]
      exact ⟨le_refl 1, le_refl 1, le_refl 1, le_refl 1⟩
    · have htype := hsingle (by omega)
      rw [getGridPosition_eq_formula index _ htype]
      have hdiv : index / (getLayoutConfig photoCount).cols
          < (getLayoutConfig photoCount).rows := by
        rw [Nat.div_lt_iff_lt_mul hc]
        exact lt_of_lt_of_le hlt hcap
      have hmod : index % (getLayoutConfig photoCount).cols
          < (getLayoutConfig photoCount).cols := Nat.mod_lt index hc
      exact ⟨Nat.succ_le_succ (Nat.zero_le _), hdiv,
        Nat.succ_le_succ (Nat.zero_le _), hmod⟩
  · intro photoCount i j hi hj hne
    obtain ⟨hr, hc, hcap, hsingle, hsmall⟩ := getLayoutConfig_facts photoCount
    by_cases h1 : photoCount ≤ 1
    · exfalso
      omega
    · exact getGridPosition_inj _ (hsingle (by omega)) i j hne

theorem plan_disjoint_amended_witness :
    (1 ≤ (getGridPosition 2 (getLayoutConfig 4)).1 ∧
      (getGridPosition 2 (getLayoutConfig 4)).1 ≤ (getLayoutConfig 4).rows ∧
      1 ≤ (getGridPosition 2 (getLayoutConfig 4)).2 ∧
      (getGridPosition 2 (getLayoutConfig 4)).2 ≤ (getLayoutConfig 4).cols) ∧
    getGridPosition 0 (getLayoutConfig 4)
      ≠ getGridPosition 1 (getLayoutConfig 4) :=
  ⟨plan_disjoint_amended.2.1 4 2 (by decide),
   plan_disjoint_amended.2.2 4 0 1 (by decide) (by decide) (by decide)⟩
